import Mathlib

/-!
A verification development for the compiler-pipeline visualizer front-end
(`src/script.js`).  The JavaScript source is shallowly embedded: its pure
tree-to-markup layout logic (`buildTreeHTML`), the connector-geometry pass
(`drawTreeLines`), the type-prompt derivation (`showTypeInputs`,
`getTypeTable`) and the event-driven controller state (`analyzeLexical`,
`compile`, `reset`, the DOM slots they mutate) become Lean definitions, and
the specification's claims about them are settled as theorems.

Naming note: the source fields `syntax_tree` / `semantic_tree` and the DOM
slots `syntaxTree` / `semanticTree` are rendered here as `synTree...` /
`semTree...`.
-/

namespace CompilerViz

/-- JavaScript string primitives used by the source.  `jsTrimLeftList` drops
leading whitespace from a character list, mirroring one side of
`String.prototype.trim`. -/
def jsTrimLeftList : List Char → List Char
  | [] => []
  | c :: cs => if c.isWhitespace then jsTrimLeftList cs else c :: cs

/-- Both-ends whitespace trim on a character list (`String.prototype.trim`). -/
def jsTrimList (l : List Char) : List Char :=
  (jsTrimLeftList ((jsTrimLeftList l).reverse)).reverse

/-- `s.trim()` of JavaScript. -/
def jsTrimStr (s : String) : String := String.mk (jsTrimList s.data)

/-- The characters strictly before the first `=`; on a list with no `=` this
is the whole list.  This is `s.split('=')[0]` of JavaScript. -/
def beforeEq : List Char → List Char
  | [] => []
  | c :: cs => if c = '=' then [] else c :: beforeEq cs

/-- `s.split('=')[0]` of JavaScript as a string operation. -/
def jsSplitFirstEq (s : String) : String := String.mk (beforeEq s.data)

/-- A lexical token as delivered by the analyze response (spec §3). -/
structure Token where
  type : String
  original : String
deriving Repr, DecidableEq

/-- A symbol table: identifier name to numeric id, in service iteration
order (a JavaScript object, embedded as an ordered association list). -/
abbrev SymbolTable := List (String × Nat)

/-- The recursive tree artifact of the compile response (spec §3):
`node_type`, `value`, optional `original_name` and `type_info`, optional
`left` / `right` children. -/
inductive TreeNode where
  | mk (node_type value : String) (original_name type_info : Option String)
       (left right : Option TreeNode)

/-- Field accessor for `node_type`. -/
def TreeNode.node_type : TreeNode → String
  | .mk nt _ _ _ _ _ => nt

/-- Field accessor for `value`. -/
def TreeNode.value : TreeNode → String
  | .mk _ v _ _ _ _ => v

/-- Field accessor for `original_name`. -/
def TreeNode.original_name : TreeNode → Option String
  | .mk _ _ onm _ _ _ => onm

/-- Field accessor for `type_info`. -/
def TreeNode.type_info : TreeNode → Option String
  | .mk _ _ _ ti _ _ => ti

/-- Field accessor for `left`. -/
def TreeNode.left : TreeNode → Option TreeNode
  | .mk _ _ _ _ l _ => l

/-- Field accessor for `right`. -/
def TreeNode.right : TreeNode → Option TreeNode
  | .mk _ _ _ _ _ r => r

/-- The coercion test of `buildTreeHTML` line 189:
`showCoercion && node.type_info === 'int to float'`. -/
def coerces (n : TreeNode) (showCoercion : Bool) : Bool :=
  showCoercion && (n.type_info == some "int to float")

/-- The class list of a rendered node value, embedding the `nodeClass`
string built in `buildTreeHTML` lines 173–192 (each appended `' tag'` is one
list entry). -/
def nodeClass (n : TreeNode) (showCoercion : Bool) : List String :=
  ["tree-node-value"]
    ++ (if n.node_type = "OP" ∨ n.node_type = "ASSIGN" then ["operator"]
        else if n.node_type = "ID" then ["id"]
        else if n.node_type = "NUMBER" then ["number"]
        else [])
    ++ (if coerces n showCoercion then ["coerced"] else [])

/-- The display value before coercion suffixing (`buildTreeHTML` lines
174–186): `node.value`, overridden by a truthy `original_name` in the `ID`
branch. -/
def displayValueBase (n : TreeNode) : String :=
  if n.node_type = "ID" then
    match n.original_name with
    | some s => if s = "" then n.value else s
    | none => n.value
  else n.value

/-- The final display value (`buildTreeHTML` lines 188–192): the base value
with `' →float'` appended when the coercion test holds. -/
def displayValue (n : TreeNode) (showCoercion : Bool) : String :=
  displayValueBase n ++ (if coerces n showCoercion then " →float" else "")

/-- The display-value selection rule as the specification words it
(§4.1): `original_name` exactly when the node is an `ID` and
`original_name` is present and non-empty, otherwise `value`.  Stated
separately from `displayValueBase` so the two can be compared. -/
def displaySelectionSpec (n : TreeNode) : String :=
  if n.node_type = "ID" ∧ n.original_name ≠ none ∧ n.original_name ≠ some "" then
    n.original_name.getD n.value
  else n.value

/-! The rendered-document model.  `buildTreeHTML` produces nested `div`
markup; we embed the element tree that markup denotes.  Geometry
(`getBoundingClientRect`) is not representable, so a connector edge is
identified by its two endpoint value elements (the parent's and the child's
label boxes) rather than by coordinates. -/

/-- A rendered DOM element: class list, text content, child elements. -/
inductive Element where
  | mk (classes : List String) (text : String) (children : List Element)

/-- Class list of an element. -/
def Element.classes : Element → List String
  | .mk c _ _ => c

/-- Text content of an element. -/
def Element.text : Element → String
  | .mk _ t _ => t

/-- Child elements of an element. -/
def Element.children : Element → List Element
  | .mk _ _ ch => ch

/-- Membership test of the element's class list (`classList.contains`). -/
def hasClass (c : String) (e : Element) : Bool := decide (c ∈ e.classes)

mutual

/-- All elements of a subtree in document order, the root first
(`querySelectorAll` traversal order restricted to a subtree). -/
def subElems : Element → List Element
  | .mk cls txt ch => .mk cls txt ch :: subElemsList ch

/-- Document-order elements of a forest of subtrees. -/
def subElemsList : List Element → List Element
  | [] => []
  | e :: es => subElems e ++ subElemsList es

end

/-- The label box of a node: the `div` holding class list and display value
emitted by `buildTreeHTML` line 195. -/
def valueElem (n : TreeNode) (b : Bool) : Element :=
  Element.mk (nodeClass n b) (displayValue n b) []

/-- The wrapper `div class="tree-child"` around a rendered child
(`buildTreeHTML` lines 200 and 203). -/
def childWrap (e : Element) : Element := Element.mk ["tree-child"] "" [e]

/-- The element tree denoted by `buildTreeHTML(node, showCoercion)`
(lines 170–210): a `tree-node` `div` holding the label box and, when at
least one child is present, a `tree-children` `div` of wrapped children,
left before right. -/
def buildTreeElem : TreeNode → Bool → Element
  | .mk nt v onm ti none none, b =>
    Element.mk ["tree-node"] "" [valueElem (.mk nt v onm ti none none) b]
  | .mk nt v onm ti (some x) none, b =>
    Element.mk ["tree-node"] ""
      [valueElem (.mk nt v onm ti (some x) none) b,
       Element.mk ["tree-children"] "" [childWrap (buildTreeElem x b)]]
  | .mk nt v onm ti none (some y), b =>
    Element.mk ["tree-node"] ""
      [valueElem (.mk nt v onm ti none (some y)) b,
       Element.mk ["tree-children"] "" [childWrap (buildTreeElem y b)]]
  | .mk nt v onm ti (some x) (some y), b =>
    Element.mk ["tree-node"] ""
      [valueElem (.mk nt v onm ti (some x) (some y)) b,
       Element.mk ["tree-children"] ""
         [childWrap (buildTreeElem x b), childWrap (buildTreeElem y b)]]

/-- First direct child carrying a class (`querySelector(':scope > .c')`). -/
def firstWith (c : String) (l : List Element) : Option Element :=
  l.find? (hasClass c)

/-- The matches of `':scope > .tree-child > .tree-node > .tree-node-value'`
on a `tree-children` element (`drawTreeLines` line 232), in document
order. -/
def selChildValues (cc : Element) : List Element :=
  List.flatten (((cc.children.filter (hasClass "tree-child")).map (fun tc =>
    List.flatten (((tc.children.filter (hasClass "tree-node")).map (fun tn =>
      tn.children.filter (hasClass "tree-node-value")))))))

/-- The edges a single `tree-node` element contributes (`drawTreeLines`
lines 227–251): when the node owns both a direct label box and a direct
children block, one edge per selected child label box, from the parent's
label box to the child's. -/
def emitNode (nd : Element) : List (Element × Element) :=
  match firstWith "tree-node-value" nd.children, firstWith "tree-children" nd.children with
  | some pv, some cc => (selChildValues cc).map (fun cv => (pv, cv))
  | _, _ => []

/-- Edges contributed by a document-order element list: each element with
class `tree-node` is visited and contributes its `emitNode` edges. -/
def edgesOfList : List Element → List (Element × Element)
  | [] => []
  | e :: es => (if hasClass "tree-node" e then emitNode e else []) ++ edgesOfList es

/-- The full connector-geometry pass result for a container: the edges of
all descendant `tree-node` elements in document order (`drawTreeLines`
lines 225–251, with coordinates abstracted to endpoint identity). -/
def computeEdges (container : Element) : List (Element × Element) :=
  edgesOfList (subElemsList container.children)

/-- A tree container as `displaySyntaxTree` / `displaySemanticTree` leave
it: the container `div` whose markup was set to `buildTreeHTML(tree)`. -/
def containerOf (t : TreeNode) (b : Bool) : Element :=
  Element.mk [] "" [buildTreeElem t b]

/-- One edge per (parent, direct-child) pair of the abstract tree, in the
pass's visit order, as the specification words the connector contract
(§4.2): stated separately from `computeEdges` so the two can be
compared. -/
def specPairEdges : TreeNode → Bool → List (Element × Element)
  | .mk _ _ _ _ none none, _ => []
  | .mk nt v onm ti (some x) none, b =>
    [(valueElem (.mk nt v onm ti (some x) none) b, valueElem x b)]
      ++ specPairEdges x b
  | .mk nt v onm ti none (some y), b =>
    [(valueElem (.mk nt v onm ti none (some y)) b, valueElem y b)]
      ++ specPairEdges y b
  | .mk nt v onm ti (some x) (some y), b =>
    [(valueElem (.mk nt v onm ti (some x) (some y)) b, valueElem x b),
     (valueElem (.mk nt v onm ti (some x) (some y)) b, valueElem y b)]
      ++ (specPairEdges x b ++ specPairEdges y b)

/-- The concrete tree of the specification's §8 edge-count property: an
ASSIGN root with an ID child and an OP child, the OP node holding two
NUMBER children. -/
def exampleAssignTree : TreeNode :=
  .mk "ASSIGN" "=" none none
    (some (.mk "ID" "x" none none none none))
    (some (.mk "OP" "+" none none
      (some (.mk "NUMBER" "2" none none none none))
      (some (.mk "NUMBER" "3" none none none none))))

/-- The svg overlay `drawTreeLines` builds (lines 217–248): class
`tree-svg`, one line element per edge, each line identified by its two
endpoint value elements (coordinates are abstracted). -/
def svgOf (edges : List (Element × Element)) : Element :=
  Element.mk ["tree-svg"] "" (edges.map (fun pc => Element.mk [] "" [pc.1, pc.2]))

mutual

/-- `container.querySelector('.tree-svg')` followed by `.remove()` on a
forest: drop the first element with class `tree-svg` in document order; the
Bool reports whether one was found. -/
def removeSvgList : List Element → List Element × Bool
  | [] => ([], false)
  | e :: es =>
    if hasClass "tree-svg" e then (es, true)
    else
      match removeSvgIn e with
      | (e', true) => (e' :: es, true)
      | (_, false) =>
        match removeSvgList es with
        | (es', bb) => (e :: es', bb)

/-- Removal of the first `tree-svg` descendant inside one element. -/
def removeSvgIn : Element → Element × Bool
  | .mk cls txt ch =>
    match removeSvgList ch with
    | (ch', bb) => (.mk cls txt ch', bb)

end

/-- The full `drawTreeLines(container)` step (lines 212–254): remove any
existing overlay, recompute the edges of the remaining rendered nodes, and
insert a fresh overlay as the container's first child. -/
def drawTreeLinesE : Element → Element
  | .mk cls txt ch =>
    let rest := (removeSvgList ch).1
    Element.mk cls txt (svgOf (edgesOfList (subElemsList rest)) :: rest)

mutual

/-- No element of the subtree carries class `tree-svg`. -/
def svgFree : Element → Bool
  | .mk cls _ ch => !(decide ("tree-svg" ∈ cls)) && svgFreeList ch

/-- No element of the forest carries class `tree-svg`. -/
def svgFreeList : List Element → Bool
  | [] => true
  | e :: es => svgFree e && svgFreeList es

end

/-- The assigned variable: the whitespace-trimmed text before the first
`=` of the (trimmed) source, as computed in `showTypeInputs` lines
124–125. -/
def assignedVar (sourceText : String) : String :=
  jsTrimStr (jsSplitFirstEq (jsTrimStr sourceText))

/-- The prompted identifier list of `showTypeInputs` lines 121–128: the
symbol-table names in iteration order with the assigned variable filtered
out. -/
def requiredInputs (symbolTable : SymbolTable) (sourceText : String) : List String :=
  (symbolTable.map Prod.fst).filter (fun v => v ≠ assignedVar sourceText)

/-! The controller and document state.  One `App` value holds the script's
module state (`currentSymbolTable`) together with the DOM the script reads
and writes: the code input, the type-prompt widgets (modelled as an ordered
list of name/selected-value pairs), the section visibility and button
flags, the output slots' markup, and the error display. -/

/-- JavaScript `a || b` chaining over optional strings, where a missing
field and the empty string are both falsy (`data.detail || data.error ||
'...'`). -/
def jsOr (a : Option String) (b : String) : String :=
  match a with
  | some s => if s = "" then b else s
  | none => b

/-- The analyze endpoint's response (spec §6), plus the transport-failure
outcome of the surrounding `try`/`catch`. -/
inductive AnalyzeResp where
  | ok (tokens : List Token) (symbol_table : SymbolTable)
  | fail (detail err : Option String)
  | transportError (msg : String)

/-- The compile endpoint's response (spec §6), plus the transport-failure
outcome. -/
inductive CompileResp where
  | ok (tokens : List Token) (symbol_table : SymbolTable)
       (synTree semTree : TreeNode)
       (intermediate optimized assembly : List String)
  | fail (detail err : Option String)
  | transportError (msg : String)

/-- The script's mutable state: module state plus the DOM slots it
touches. -/
structure App where
  codeInput : String
  currentSymbolTable : SymbolTable
  typeWidgets : List (String × String)
  typeSectionVisible : Bool
  compileDisabled : Bool
  tokensOutput : String
  symbolTableBody : String
  synTreeView : String
  semTreeView : String
  icgOutput : String
  optimizedOutput : String
  assemblyOutput : String
  errorText : String
  errorVisible : Bool
deriving Repr

/-- The token list markup of `displayTokens` (lines 108–112). -/
def renderTokens (tokens : List Token) : String :=
  String.join (tokens.map (fun t =>
    "<span class=\"token " ++ t.type ++ "\">" ++ t.original ++ "</span>"))

/-- The symbol-table row markup of `displaySymbolTable` (lines 114–118). -/
def renderSymbolRows (symbolTable : SymbolTable) : String :=
  String.join (symbolTable.map (fun p =>
    "<tr><td>" ++ p.1 ++ "</td><td>" ++ toString p.2 ++ "</td></tr>"))

/-- Space-joined class attribute text for a class list. -/
def classAttr (l : List String) : String := String.intercalate " " l

/-- The label-box markup of `buildTreeHTML` line 195. -/
def valueDivStr (n : TreeNode) (b : Bool) : String :=
  "<div class=\"" ++ classAttr (nodeClass n b) ++ "\">" ++ displayValue n b ++ "</div>"

/-- The markup string returned by `buildTreeHTML` (lines 170–210); the
string counterpart of `buildTreeElem`. -/
def buildTreeHTMLStr : TreeNode → Bool → String
  | .mk nt v onm ti none none, b =>
    "<div class=\"tree-node\">" ++ valueDivStr (.mk nt v onm ti none none) b ++ "</div>"
  | .mk nt v onm ti (some x) none, b =>
    "<div class=\"tree-node\">" ++ valueDivStr (.mk nt v onm ti (some x) none) b
      ++ "<div class=\"tree-children\"><div class=\"tree-child\">"
      ++ buildTreeHTMLStr x b ++ "</div></div></div>"
  | .mk nt v onm ti none (some y), b =>
    "<div class=\"tree-node\">" ++ valueDivStr (.mk nt v onm ti none (some y)) b
      ++ "<div class=\"tree-children\"><div class=\"tree-child\">"
      ++ buildTreeHTMLStr y b ++ "</div></div></div>"
  | .mk nt v onm ti (some x) (some y), b =>
    "<div class=\"tree-node\">" ++ valueDivStr (.mk nt v onm ti (some x) (some y)) b
      ++ "<div class=\"tree-children\"><div class=\"tree-child\">"
      ++ buildTreeHTMLStr x b ++ "</div><div class=\"tree-child\">"
      ++ buildTreeHTMLStr y b ++ "</div></div></div>"

/-- `showError` (lines 269–272). -/
def showError (s : App) (message : String) : App :=
  { s with
      errorText := "❌ Error: " ++ message
      errorVisible := true }

/-- `hideError` (lines 274–276). -/
def hideError (s : App) : App := { s with errorVisible := false }

/-- The placeholder markup of `clearOutputs` for the token slot. -/
def tokensPlaceholder : String :=
  "<span style=\"color:#666;\">Click \"Analyze Code\" to see tokens...</span>"

/-- The placeholder markup of `clearOutputs` for the parse-tree slot. -/
def synTreePlaceholder : String :=
  "<span style=\"color:#666;\">Compile to see parse tree...</span>"

/-- The placeholder markup of `clearOutputs` for the semantic-tree slot. -/
def semTreePlaceholder : String :=
  "<span style=\"color:#666;\">Compile to see semantic tree...</span>"

/-- The placeholder text of `clearOutputs` for the intermediate-code slot. -/
def icgPlaceholder : String := "Compile to see intermediate code..."

/-- The placeholder text of `clearOutputs` for the optimized-code slot. -/
def optimizedPlaceholder : String := "Compile to see optimized code..."

/-- The placeholder text of `clearOutputs` for the assembly slot. -/
def assemblyPlaceholder : String := "Compile to see assembly code..."

/-- `clearOutputs` (lines 278–286): every output slot back to its
placeholder. -/
def clearOutputs (s : App) : App :=
  { s with
      tokensOutput := tokensPlaceholder
      symbolTableBody := ""
      synTreeView := synTreePlaceholder
      semTreeView := semTreePlaceholder
      icgOutput := icgPlaceholder
      optimizedOutput := optimizedPlaceholder
      assemblyOutput := assemblyPlaceholder }

/-- `displayTokens` (lines 108–112). -/
def displayTokens (s : App) (tokens : List Token) : App :=
  { s with tokensOutput := renderTokens tokens }

/-- `displaySymbolTable` (lines 114–118). -/
def displaySymbolTable (s : App) (symbolTable : SymbolTable) : App :=
  { s with symbolTableBody := renderSymbolRows symbolTable }

/-- `displaySyntaxTree` (lines 159–163); the deferred `drawTreeLines` call
is modelled by `drawTreeLinesE` on the element rendition. -/
def displaySynTree (s : App) (tree : TreeNode) : App :=
  { s with synTreeView := buildTreeHTMLStr tree false }

/-- `displaySemanticTree` (lines 165–168). -/
def displaySemTree (s : App) (tree : TreeNode) : App :=
  { s with semTreeView := buildTreeHTMLStr tree true }

/-- `displayICG` (lines 256–258): newline-joined listing. -/
def displayICG (s : App) (ins : List String) : App :=
  { s with icgOutput := String.intercalate "\n" ins }

/-- `displayOptimized` (lines 260–262). -/
def displayOptimized (s : App) (ins : List String) : App :=
  { s with optimizedOutput := String.intercalate "\n" ins }

/-- `displayAssembly` (lines 264–266). -/
def displayAssembly (s : App) (ins : List String) : App :=
  { s with assemblyOutput := String.intercalate "\n" ins }

/-- `showTypeInputs` (lines 120–146): derive the prompted names; when none
remain, hide the section and return — leaving any existing widgets in the
document — otherwise replace the widgets, one per prompted name, each
`select` defaulting to its first option `int`. -/
def showTypeInputs (s : App) (symbolTable : SymbolTable) : App :=
  let inputVariables := requiredInputs symbolTable s.codeInput
  if inputVariables = [] then { s with typeSectionVisible := false }
  else
    { s with
        typeWidgets := inputVariables.map (fun v => (v, "int"))
        typeSectionVisible := true }

/-- `document.getElementById('type-' + name)` followed by `.value`: the
first widget with the given name, if present. -/
def widgetValue (v : String) : List (String × String) → Option String
  | [] => none
  | q :: qs => if q.1 = v then some q.2 else widgetValue v qs

/-- `getTypeTable` (lines 148–157): iterate the names of the stored symbol
table; a name with a present widget contributes its selected value, a name
without one is skipped. -/
def getTypeTable (s : App) : List (String × String) :=
  (s.currentSymbolTable.map Prod.fst).filterMap
    (fun v => (widgetValue v s.typeWidgets).map (fun val => (v, val)))

/-- The collected table as the amended reading words it: the stored
symbol-table names that have a widget, in order, paired with their widget
values.  Stated separately from `getTypeTable` so the two can be
compared. -/
def collectSpec (s : App) : List (String × String) :=
  ((s.currentSymbolTable.map Prod.fst).filter
      (fun v => (widgetValue v s.typeWidgets).isSome)).map
    (fun v => (v, (widgetValue v s.typeWidgets).getD ""))

/-- `analyzeLexical` (lines 30–70) with the I/O outcome supplied as data;
the Bool records whether the network request was issued. -/
def analyzeLexical (s : App) (resp : AnalyzeResp) : App × Bool :=
  let code := jsTrimStr s.codeInput
  if code = "" then (showError s "Please enter some code to analyze.", false)
  else
    let s1 := clearOutputs (hideError s)
    match resp with
    | .ok tokens symbol_table =>
      let s2 := displaySymbolTable (displayTokens s1 tokens) symbol_table
      let s3 := { s2 with currentSymbolTable := symbol_table }
      let s4 := showTypeInputs s3 symbol_table
      ({ s4 with compileDisabled := false }, true)
    | .fail detail err =>
      (showError s1 (jsOr detail (jsOr err "Analysis failed")), true)
    | .transportError msg =>
      (showError s1 ("Error connecting to API: " ++ msg), true)

/-- `compile` (lines 73–105) with the I/O outcome supplied as data; the
Bool records whether the network request was issued — the function has no
guard and always issues it.  Note `currentSymbolTable` is not reassigned
here. -/
def compile (s : App) (resp : CompileResp) : App × Bool :=
  let s1 := hideError s
  match resp with
  | .ok tokens symbol_table syn sem icg opt asm =>
    (displayAssembly (displayOptimized (displayICG
      (displaySemTree (displaySynTree
        (displaySymbolTable (displayTokens s1 tokens) symbol_table) syn) sem)
      icg) opt) asm, true)
  | .fail detail err =>
    (showError s1 (jsOr detail (jsOr err "Compilation failed")), true)
  | .transportError msg =>
    (showError s1 ("Error connecting to API: " ++ msg), true)

/-- `reset` (lines 288–296). -/
def reset (s : App) : App :=
  hideError (clearOutputs
    { s with
        codeInput := ""
        currentSymbolTable := []
        typeSectionVisible := false
        typeWidgets := []
        compileDisabled := true })

/-- A user selection on the i-th prompt widget; a `select` can only take
one of its option values `int` / `float`. -/
def setWidget (s : App) (i : Nat) (v : String) : App :=
  if v = "int" ∨ v = "float" then
    match s.typeWidgets.get? i with
    | some q => { s with typeWidgets := s.typeWidgets.set i (q.1, v) }
    | none => s
  else s

/-- The user-visible events the script listens to (lines 21–27), each
network-bound event carrying the response its request will produce. -/
inductive Event where
  | editCode (text : String)
  | clickAnalyze (resp : AnalyzeResp)
  | pressEnter (resp : AnalyzeResp)
  | clickCompile (resp : CompileResp)
  | clickReset
  | selectType (i : Nat) (v : String)

/-- One event step; the Bool records whether a network call was issued.
A click on a disabled button dispatches no handler. -/
def step (s : App) (e : Event) : App × Bool :=
  match e with
  | .editCode text => ({ s with codeInput := text }, false)
  | .clickAnalyze resp => analyzeLexical s resp
  | .pressEnter resp => analyzeLexical s resp
  | .clickCompile resp => if s.compileDisabled then (s, false) else compile s resp
  | .clickReset => (reset s, false)
  | .selectType i v => (setWidget s i v, false)

/-- Modelled from the spec: the initial document state — `index.html` is
not among the sources — per §4.4 the `Idle` state has the compile action
disabled, and the prompt surface starts hidden and empty; `script.js` then
runs `clearOutputs()` on load (line 299). -/
def init : App :=
  clearOutputs
    { codeInput := ""
      currentSymbolTable := []
      typeWidgets := []
      typeSectionVisible := false
      compileDisabled := true
      tokensOutput := ""
      symbolTableBody := ""
      synTreeView := ""
      semTreeView := ""
      icgOutput := ""
      optimizedOutput := ""
      assemblyOutput := ""
      errorText := ""
      errorVisible := false }

/-- States reachable from page load by any event sequence. -/
inductive Reachable : App → Prop where
  | start : Reachable init
  | step (s : App) (e : Event) : Reachable s → Reachable (step s e).1

/-- Run a list of events from a state. -/
def run (s : App) : List Event → App
  | [] => s
  | e :: es => run (step s e).1 es

/-- The displayed artifacts as one tuple: tokens, symbol-table rows, the
two trees, and the three code listings. -/
def artifacts (s : App) :
    String × String × String × String × String × String × String :=
  (s.tokensOutput, s.symbolTableBody, s.synTreeView, s.semTreeView,
   s.icgOutput, s.optimizedOutput, s.assemblyOutput)

/-- The artifact tuple in placeholder state. -/
def placeholderArtifacts :
    String × String × String × String × String × String × String :=
  (tokensPlaceholder, "", synTreePlaceholder, semTreePlaceholder,
   icgPlaceholder, optimizedPlaceholder, assemblyPlaceholder)

/-- The observable `Idle` conditions of §4.4: compile disabled, no stored
symbol table. -/
def IsIdle (s : App) : Prop :=
  s.compileDisabled = true ∧ s.currentSymbolTable = []

/-- Widget-value invariant: every widget holds one of the enumerated
values. -/
def widgetsTyped (s : App) : Bool :=
  s.typeWidgets.all (fun q => q.2 == "int" || q.2 == "float")

/-- A state with a stale prompt widget: analyze `"x = a"` prompts for `a`,
then analyze `"a"` succeeds with a table whose prompted set is empty, so
the surface is suppressed but the widget for `a` stays in the document. -/
def staleWidgetState : App :=
  run init
    [Event.editCode "x = a",
     Event.clickAnalyze (AnalyzeResp.ok [] [("x", 0), ("a", 1)]),
     Event.editCode "a",
     Event.clickAnalyze (AnalyzeResp.ok [] [("a", 1)])]

/-- The state after one displayed successful analyze of `"x = a"`. -/
def afterAnalyzeState : App :=
  run init
    [Event.editCode "x = a",
     Event.clickAnalyze (AnalyzeResp.ok [Token.mk "identifier" "x"] [("x", 0), ("a", 1)])]

/-- The state after a further analyze that the service rejects. -/
def afterFailedAnalyzeState : App :=
  run afterAnalyzeState [Event.clickAnalyze (AnalyzeResp.fail none none)]

lemma coerces_eq_true_iff (n : TreeNode) (b : Bool) :
    coerces n b = true ↔ (b = true ∧ n.type_info = some "int to float") := by
  simp [coerces]

lemma mem_nodeClass_coerced (n : TreeNode) (b : Bool) :
    "coerced" ∈ nodeClass n b ↔ coerces n b = true := by
  have hp : "coerced" ∉ (if n.node_type = "OP" ∨ n.node_type = "ASSIGN" then ["operator"]
      else if n.node_type = "ID" then ["id"]
      else if n.node_type = "NUMBER" then ["number"]
      else ([] : List String)) := by
    repeat' split
    all_goals simp
  unfold nodeClass
  cases hcb : coerces n b <;> simp [hcb, List.mem_append, hp]

lemma length_coercion_suffix : (" →float" : String).length = 7 := by decide

/-- C5: the layout function appends the coercion marker — the `coerced`
style tag together with the `' →float'` suffix — if and only if the
coercion flag is set and the node's `type_info` is exactly
`"int to float"`; with the test false the class list carries no `coerced`
tag and the display value is exactly the base value. -/
theorem coercion_marker_iff (n : TreeNode) (b : Bool) :
    ("coerced" ∈ nodeClass n b ↔ (b = true ∧ n.type_info = some "int to float"))
    ∧ (displayValue n b = displayValueBase n ++ " →float"
        ↔ (b = true ∧ n.type_info = some "int to float"))
    ∧ (displayValue n b = displayValueBase n
        ↔ ¬(b = true ∧ n.type_info = some "int to float")) := by
  have hsuf : displayValueBase n ++ " →float" ≠ displayValueBase n := by
    intro h
    have := congrArg String.length h
    simp [String.length_append, length_coercion_suffix] at this
  refine ⟨?_, ?_, ?_⟩
  · rw [mem_nodeClass_coerced, coerces_eq_true_iff]
  · rw [← coerces_eq_true_iff]
    cases hcb : coerces n b <;> simp [displayValue, hcb]
    exact fun h => hsuf h.symm
  · rw [← coerces_eq_true_iff]
    cases hcb : coerces n b <;> simp [displayValue, hcb]
    exact hsuf

/-- C6: the display value chosen by the layout (before coercion suffixing)
is `original_name` exactly when the node is an `ID` with a present,
non-empty `original_name`, and the `value` field in every other case —
i.e. the source's selection agrees with the specification's rule. -/
theorem display_value_selection (n : TreeNode) :
    displayValueBase n = displaySelectionSpec n := by
  obtain ⟨nt, v, onm, ti, l, r⟩ := n
  simp only [displayValueBase, displaySelectionSpec, TreeNode.node_type,
    TreeNode.original_name, TreeNode.value]
  by_cases hid : nt = "ID"
  · cases onm with
    | none => simp [hid]
    | some s =>
      by_cases hs : s = "" <;> simp [hid, hs, Option.getD]
  · simp [hid]

lemma not_mem_nodeClass (n : TreeNode) (b : Bool) (c : String)
    (h1 : c ≠ "tree-node-value") (h2 : c ≠ "operator") (h3 : c ≠ "id")
    (h4 : c ≠ "number") (h5 : c ≠ "coerced") : c ∉ nodeClass n b := by
  unfold nodeClass
  repeat' split
  all_goals simp_all

@[simp] lemma Element.classes_mk (c : List String) (t : String) (ch : List Element) :
    (Element.mk c t ch).classes = c := rfl

@[simp] lemma Element.children_mk (c : List String) (t : String) (ch : List Element) :
    (Element.mk c t ch).children = ch := rfl

@[simp] lemma valueElem_def (n : TreeNode) (b : Bool) :
    valueElem n b = Element.mk (nodeClass n b) (displayValue n b) [] := rfl

@[simp] lemma hasClass_nodeClassDiv_nodeValue (n : TreeNode) (b : Bool)
    (t : String) (ch : List Element) :
    hasClass "tree-node-value" (Element.mk (nodeClass n b) t ch) = true := by
  simp [hasClass, nodeClass]

@[simp] lemma hasClass_nodeClassDiv_node (n : TreeNode) (b : Bool)
    (t : String) (ch : List Element) :
    hasClass "tree-node" (Element.mk (nodeClass n b) t ch) = false := by
  simp only [hasClass, Element.classes_mk, decide_eq_false_iff_not]
  exact not_mem_nodeClass n b _ (by decide) (by decide) (by decide) (by decide) (by decide)

@[simp] lemma hasClass_nodeClassDiv_children (n : TreeNode) (b : Bool)
    (t : String) (ch : List Element) :
    hasClass "tree-children" (Element.mk (nodeClass n b) t ch) = false := by
  simp only [hasClass, Element.classes_mk, decide_eq_false_iff_not]
  exact not_mem_nodeClass n b _ (by decide) (by decide) (by decide) (by decide) (by decide)

lemma buildTreeElem_classes : ∀ (t : TreeNode) (b : Bool),
    (buildTreeElem t b).classes = ["tree-node"]
  | .mk _ _ _ _ none none, _ => rfl
  | .mk _ _ _ _ (some _) none, _ => rfl
  | .mk _ _ _ _ none (some _), _ => rfl
  | .mk _ _ _ _ (some _) (some _), _ => rfl

@[simp] lemma hasClass_buildTreeElem_node (t : TreeNode) (b : Bool) :
    hasClass "tree-node" (buildTreeElem t b) = true := by
  simp [hasClass, buildTreeElem_classes]

lemma subElemsList_append (a c : List Element) :
    subElemsList (a ++ c) = subElemsList a ++ subElemsList c := by
  induction a with
  | nil => rfl
  | cons e es ih => simp [subElemsList, ih, List.append_assoc]

lemma edgesOfList_append (a c : List Element) :
    edgesOfList (a ++ c) = edgesOfList a ++ edgesOfList c := by
  induction a with
  | nil => rfl
  | cons e es ih => simp [edgesOfList, ih, List.append_assoc]

@[simp] lemma hasClass_treeNodeDiv (t : String) (ch : List Element) :
    hasClass "tree-node" (Element.mk ["tree-node"] t ch) = true := rfl

@[simp] lemma hasClass_childrenDiv_node (t : String) (ch : List Element) :
    hasClass "tree-node" (Element.mk ["tree-children"] t ch) = false := rfl

@[simp] lemma hasClass_childrenDiv_children (t : String) (ch : List Element) :
    hasClass "tree-children" (Element.mk ["tree-children"] t ch) = true := rfl

@[simp] lemma hasClass_childrenDiv_nodeValue (t : String) (ch : List Element) :
    hasClass "tree-node-value" (Element.mk ["tree-children"] t ch) = false := rfl

@[simp] lemma hasClass_childDiv_child (t : String) (ch : List Element) :
    hasClass "tree-child" (Element.mk ["tree-child"] t ch) = true := rfl

@[simp] lemma hasClass_childDiv_node (t : String) (ch : List Element) :
    hasClass "tree-node" (Element.mk ["tree-child"] t ch) = false := rfl

lemma buildTreeElem_filter_nodeValue : ∀ (t : TreeNode) (b : Bool),
    List.filter (hasClass "tree-node-value") (buildTreeElem t b).children = [valueElem t b]
  | .mk _ _ _ _ none none, b => by
    simp [buildTreeElem, List.filter]
  | .mk _ _ _ _ (some _) none, b => by
    simp [buildTreeElem, List.filter]
  | .mk _ _ _ _ none (some _), b => by
    simp [buildTreeElem, List.filter]
  | .mk _ _ _ _ (some _) (some _), b => by
    simp [buildTreeElem, List.filter]

lemma edges_subElems : ∀ (t : TreeNode) (b : Bool),
    edgesOfList (subElems (buildTreeElem t b)) = specPairEdges t b
  | .mk nt v onm ti none none, b => by
    simp [buildTreeElem, subElems, subElemsList, edgesOfList, emitNode, firstWith,
      List.find?_cons, specPairEdges]
  | .mk nt v onm ti (some x) none, b => by
    have ihx := edges_subElems x b
    simp [buildTreeElem, subElems, subElemsList, edgesOfList, emitNode, firstWith,
      List.find?_cons, selChildValues, childWrap, List.filter,
      buildTreeElem_filter_nodeValue, subElemsList_append, edgesOfList_append,
      ihx, specPairEdges]
  | .mk nt v onm ti none (some y), b => by
    have ihy := edges_subElems y b
    simp [buildTreeElem, subElems, subElemsList, edgesOfList, emitNode, firstWith,
      List.find?_cons, selChildValues, childWrap, List.filter,
      buildTreeElem_filter_nodeValue, subElemsList_append, edgesOfList_append,
      ihy, specPairEdges]
  | .mk nt v onm ti (some x) (some y), b => by
    have ihx := edges_subElems x b
    have ihy := edges_subElems y b
    simp [buildTreeElem, subElems, subElemsList, edgesOfList, emitNode, firstWith,
      List.find?_cons, selChildValues, childWrap, List.filter,
      buildTreeElem_filter_nodeValue, subElemsList_append, edgesOfList_append,
      ihx, ihy, specPairEdges]

/-- C3: the connector-geometry pass over a rendered tree emits exactly one
edge per (parent, direct-child) pair of the abstract tree — the computed
edge list coincides with the one-edge-per-pair list — and on the ASSIGN
example tree (ID child plus an OP child with two NUMBER children) the edge
count is exactly 4. -/
theorem connector_edges_per_pair :
    (∀ (t : TreeNode) (b : Bool), computeEdges (containerOf t b) = specPairEdges t b)
    ∧ (computeEdges (containerOf exampleAssignTree false)).length = 4 := by
  constructor
  · intro t b
    simp [computeEdges, containerOf, Element.children, subElemsList, edges_subElems]
  · decide

@[simp] lemma decide_svg_nodeClass (n : TreeNode) (b : Bool) :
    decide ("tree-svg" ∈ nodeClass n b) = false :=
  decide_eq_false (not_mem_nodeClass n b _ (by decide) (by decide) (by decide)
    (by decide) (by decide))

lemma svgFree_buildTreeElem : ∀ (t : TreeNode) (b : Bool),
    svgFree (buildTreeElem t b) = true
  | .mk _ _ _ _ none none, b => by
    simp [buildTreeElem, svgFree, svgFreeList]
  | .mk _ _ _ _ (some x) none, b => by
    have ihx := svgFree_buildTreeElem x b
    simp [buildTreeElem, svgFree, svgFreeList, childWrap, ihx]
  | .mk _ _ _ _ none (some y), b => by
    have ihy := svgFree_buildTreeElem y b
    simp [buildTreeElem, svgFree, svgFreeList, childWrap, ihy]
  | .mk _ _ _ _ (some x) (some y), b => by
    have ihx := svgFree_buildTreeElem x b
    have ihy := svgFree_buildTreeElem y b
    simp [buildTreeElem, svgFree, svgFreeList, childWrap, ihx, ihy]

mutual

lemma removeSvgIn_of_svgFree : ∀ (e : Element), svgFree e = true → removeSvgIn e = (e, false)
  | .mk cls txt ch, h => by
    have h2 : svgFreeList ch = true := by
      simp only [svgFree, Bool.and_eq_true] at h
      exact h.2
    simp [removeSvgIn, removeSvgList_of_svgFree ch h2]

lemma removeSvgList_of_svgFree : ∀ (l : List Element), svgFreeList l = true → removeSvgList l = (l, false)
  | [], _ => rfl
  | e :: es, h => by
    have hh : svgFree e = true ∧ svgFreeList es = true := by
      simpa only [svgFreeList, Bool.and_eq_true] using h
    have hc : hasClass "tree-svg" e = false := by
      obtain ⟨cls, txt, ch⟩ := e
      have := hh.1
      simp only [svgFree, Bool.and_eq_true, Bool.not_eq_true'] at this
      simpa [hasClass] using this.1
    simp [removeSvgList, hc, removeSvgIn_of_svgFree e hh.1,
      removeSvgList_of_svgFree es hh.2]

end

@[simp] lemma hasClass_svgOf (E : List (Element × Element)) :
    hasClass "tree-svg" (svgOf E) = true := rfl

/-- C8: recomputing the connector overlay on an unchanged rendered tree is
idempotent — a second `drawTreeLines` invocation leaves the container
exactly as the first left it — and each invocation fully replaces the
overlay: the container ends up with the freshly computed edge overlay as
its sole `tree-svg` child, prepended to the untouched rendered content. -/
theorem drawTreeLines_idempotent (t : TreeNode) (b : Bool) :
    drawTreeLinesE (drawTreeLinesE (containerOf t b)) = drawTreeLinesE (containerOf t b)
    ∧ (drawTreeLinesE (containerOf t b)).children =
        svgOf (computeEdges (containerOf t b)) :: (containerOf t b).children := by
  have hfree : svgFreeList [buildTreeElem t b] = true := by
    simp [svgFreeList, svgFree_buildTreeElem]
  have h1 : drawTreeLinesE (containerOf t b) =
      Element.mk [] ""
        (svgOf (edgesOfList (subElemsList [buildTreeElem t b])) :: [buildTreeElem t b]) := by
    simp [drawTreeLinesE, containerOf, removeSvgList_of_svgFree _ hfree]
  constructor
  · rw [h1]
    simp [drawTreeLinesE, removeSvgList]
  · rw [h1]
    simp [computeEdges, containerOf]

/-- C4: `requiredInputs` is the symbol table's name sequence with exactly
the assigned variable removed — a name is kept if and only if it is a
symbol-table name differing from the assigned variable, the relative order
is preserved (the result is a sublist of the name sequence), and on the
specification's example (`"x = a + b"` with table `x,a,b`) the result is
exactly `["a", "b"]`. -/
theorem requiredInputs_excludes_assigned :
    (∀ (st : SymbolTable) (src v : String),
        v ∈ requiredInputs st src ↔ (v ∈ st.map Prod.fst ∧ v ≠ assignedVar src))
    ∧ (∀ (st : SymbolTable) (src : String),
        List.Sublist (requiredInputs st src) (st.map Prod.fst))
    ∧ requiredInputs [("x", 0), ("a", 1), ("b", 2)] "x = a + b" = ["a", "b"] := by
  refine ⟨?_, ?_, ?_⟩
  · intro st src v
    simp [requiredInputs, List.mem_filter]
  · intro st src
    exact List.filter_sublist _
  · decide

lemma reachable_run (s : App) (es : List Event) (h : Reachable s) :
    Reachable (run s es) := by
  induction es generalizing s with
  | nil => simpa [run] using h
  | cons e es ih => exact ih _ (Reachable.step s e h)

lemma all_set {α : Type} (p : α → Bool) (l : List α) (i : Nat) (b : α)
    (hl : l.all p = true) (hb : p b = true) : (l.set i b).all p = true := by
  rw [List.all_eq_true] at hl ⊢
  intro x hx
  rcases List.mem_or_eq_of_mem_set hx with hmem | hxb
  · exact hl x hmem
  · rw [hxb]; exact hb

lemma widgetValue_mem (v x : String) : ∀ (w : List (String × String)),
    widgetValue v w = some x → (v, x) ∈ w
  | q :: qs, h => by
    obtain ⟨a, c⟩ := q
    by_cases hq : a = v
    · rw [widgetValue, if_pos hq] at h
      injection h with h
      have hcx : c = x := h
      rw [← hq, ← hcx]
      exact List.mem_cons_self _ _
    · rw [widgetValue, if_neg hq] at h
      exact List.mem_cons_of_mem _ (widgetValue_mem v x qs h)

lemma widgetsTyped_analyze (s : App) (resp : AnalyzeResp)
    (ih : widgetsTyped s = true) : widgetsTyped (analyzeLexical s resp).1 = true := by
  unfold analyzeLexical
  by_cases hcode : jsTrimStr s.codeInput = ""
  · simpa [hcode, showError, widgetsTyped] using ih
  · cases resp with
    | fail d e' =>
      simpa [hcode, showError, hideError, clearOutputs, widgetsTyped] using ih
    | transportError m =>
      simpa [hcode, showError, hideError, clearOutputs, widgetsTyped] using ih
    | ok toks tab =>
      by_cases hreq : requiredInputs tab s.codeInput = []
      · simpa [hcode, hreq, showTypeInputs, displayTokens, displaySymbolTable,
          hideError, clearOutputs, widgetsTyped] using ih
      · simp only [hcode, if_neg, widgetsTyped, showTypeInputs, displayTokens,
          displaySymbolTable, hideError, clearOutputs, hreq, ite_false]
        rw [List.all_eq_true]
        intro x hx
        rw [List.mem_map] at hx
        obtain ⟨y, _, hy⟩ := hx
        rw [← hy]
        rfl

lemma reachable_widgetsTyped (s : App) (h : Reachable s) : widgetsTyped s = true := by
  induction h with
  | start => rfl
  | step s e hs ih =>
    cases e with
    | editCode t => simpa [step, widgetsTyped] using ih
    | clickAnalyze resp => exact widgetsTyped_analyze s resp ih
    | pressEnter resp => exact widgetsTyped_analyze s resp ih
    | clickCompile resp =>
      by_cases hd : s.compileDisabled
      · simpa [step, hd] using ih
      · cases resp <;>
          simpa [step, hd, compile, hideError, showError, displayTokens,
            displaySymbolTable, displaySynTree, displaySemTree, displayICG,
            displayOptimized, displayAssembly, widgetsTyped] using ih
    | clickReset => simp [step, reset, hideError, clearOutputs, widgetsTyped]
    | selectType i v =>
      show widgetsTyped (setWidget s i v) = true
      unfold setWidget
      by_cases hv : v = "int" ∨ v = "float"
      · rw [if_pos hv]
        cases hq : s.typeWidgets.get? i with
        | none => simpa using ih
        | some q =>
          rw [widgetsTyped] at ih ⊢
          apply all_set _ _ _ _ ih
          rcases hv with hv | hv <;> simp [hv]
      · simpa [hv] using ih

lemma filterMap_widget_eq (w : List (String × String)) (keys : List String) :
    keys.filterMap (fun v => (widgetValue v w).map (fun val => (v, val)))
      = (keys.filter (fun v => (widgetValue v w).isSome)).map
          (fun v => (v, (widgetValue v w).getD "")) := by
  induction keys with
  | nil => rfl
  | cons k ks ih =>
    cases hw : widgetValue k w <;>
      simp [List.filterMap_cons, List.filter_cons, hw, ih]

/-- C9: `reset()` returns the pipeline to `Idle` from every state: it
clears the stored source, the stored symbol table, the prompt widgets (and
hides their section), disables the compile action, puts every displayed
artifact back to its placeholder, and hides the error display. -/
theorem reset_returns_to_idle (s : App) :
    IsIdle (reset s)
    ∧ (reset s).codeInput = ""
    ∧ (reset s).currentSymbolTable = []
    ∧ (reset s).typeWidgets = []
    ∧ (reset s).typeSectionVisible = false
    ∧ (reset s).compileDisabled = true
    ∧ artifacts (reset s) = placeholderArtifacts
    ∧ (reset s).errorVisible = false := by
  simp [reset, clearOutputs, hideError, IsIdle, artifacts, placeholderArtifacts]

/-- C1: evaluation at the failing input — the compile operation invoked in
the initial `Idle` state (no analyze has succeeded since startup) does not
reject the attempt: it issues the network call, and on a service failure
it surfaces the service's error message rather than a local rejection. -/
theorem compile_in_idle_issues_network_call :
    IsIdle init
    ∧ (compile init (CompileResp.fail none none)).2 = true
    ∧ (compile init (CompileResp.fail none none)).1.errorVisible = true
    ∧ (compile init (CompileResp.fail none none)).1.errorText
        = "❌ Error: Compilation failed" := by
  refine ⟨⟨rfl, rfl⟩, rfl, rfl, by decide⟩

/-- C2 counterexample: after a successful analyze has displayed a token
listing, a further analyze that the service rejects does not leave the
displayed artifacts untouched — the token slot has been cleared back to
its placeholder before the request was sent. -/
theorem failed_analyze_clears_artifacts :
    afterAnalyzeState.tokensOutput = "<span class=\"token identifier\">x</span>"
    ∧ afterFailedAnalyzeState.tokensOutput = tokensPlaceholder
    ∧ afterFailedAnalyzeState.tokensOutput ≠ afterAnalyzeState.tokensOutput := by
  refine ⟨by decide, by decide, by decide⟩

/-- C2 amended: on every failed analyze the pipeline state does not
advance — the stored symbol table, the compile-enabled flag and the prompt
widgets are unchanged — and the displayed artifacts are untouched exactly
when the failure is the local validation of empty source; when the request
is sent and fails (service rejection or transport error) the artifacts
have already been cleared to their placeholders. -/
theorem failed_analyze_no_advance (s : App) (detail err : Option String) (msg : String) :
    ((analyzeLexical s (.fail detail err)).1.currentSymbolTable = s.currentSymbolTable
      ∧ (analyzeLexical s (.fail detail err)).1.compileDisabled = s.compileDisabled
      ∧ (analyzeLexical s (.fail detail err)).1.typeWidgets = s.typeWidgets
      ∧ (analyzeLexical s (.transportError msg)).1.currentSymbolTable = s.currentSymbolTable
      ∧ (analyzeLexical s (.transportError msg)).1.compileDisabled = s.compileDisabled
      ∧ (analyzeLexical s (.transportError msg)).1.typeWidgets = s.typeWidgets)
    ∧ (if jsTrimStr s.codeInput = ""
        then artifacts (analyzeLexical s (.fail detail err)).1 = artifacts s
          ∧ artifacts (analyzeLexical s (.transportError msg)).1 = artifacts s
        else artifacts (analyzeLexical s (.fail detail err)).1 = placeholderArtifacts
          ∧ artifacts (analyzeLexical s (.transportError msg)).1 = placeholderArtifacts) := by
  by_cases h : jsTrimStr s.codeInput = "" <;>
    simp [analyzeLexical, h, showError, hideError, clearOutputs, artifacts,
      placeholderArtifacts]

/-- C7 counterexample: a reachable state in which the prompted set of the
most recent successful analyze is empty (the prompt surface was
suppressed), yet the collected type table is non-empty — it picks up a
stale widget for a name of the current symbol table, so its domain is not
the prompted-and-present set. -/
theorem getTypeTable_beyond_prompted :
    Reachable staleWidgetState
    ∧ requiredInputs staleWidgetState.currentSymbolTable staleWidgetState.codeInput = []
    ∧ getTypeTable staleWidgetState = [("a", "int")] := by
  refine ⟨reachable_run init _ Reachable.start, by decide, by decide⟩

/-- C7 amended: in every reachable state the collected table's domain is
exactly the set of names of the currently stored symbol table whose prompt
widget is present — in table order, names with absent widgets being
skipped without error (the table may be partial or empty) — and every
collected value lies in the enumerated set int / float. -/
theorem getTypeTable_domain_and_values (s : App) (h : Reachable s) :
    getTypeTable s = collectSpec s
    ∧ (getTypeTable s).all (fun p => p.2 == "int" || p.2 == "float") = true := by
  constructor
  · exact filterMap_widget_eq s.typeWidgets (s.currentSymbolTable.map Prod.fst)
  · have hw := reachable_widgetsTyped s h
    rw [List.all_eq_true]
    intro p hp
    rw [getTypeTable, List.mem_filterMap] at hp
    obtain ⟨v, _, hfv⟩ := hp
    cases hwv : widgetValue v s.typeWidgets with
    | none => rw [hwv] at hfv; simp at hfv
    | some val =>
      rw [hwv] at hfv
      simp only [Option.map_some'] at hfv
      injection hfv with hfv
      rw [← hfv]
      exact (List.all_eq_true.1 hw) _ (widgetValue_mem v val _ hwv)

/-- C7 witness: the amended statement evaluated at the concrete
stale-widget state. -/
theorem getTypeTable_domain_and_values_witness :
    getTypeTable staleWidgetState = collectSpec staleWidgetState
    ∧ (getTypeTable staleWidgetState).all
        (fun p => p.2 == "int" || p.2 == "float") = true :=
  getTypeTable_domain_and_values staleWidgetState (reachable_run init _ Reachable.start)

/-- C10: invariant of every collected type table in every reachable state
— also in states where stale widgets of an earlier analyze remain in the
document — every entry's name is drawn from the currently stored symbol
table and every entry's value is `int` or `float`. -/
theorem getTypeTable_invariant (s : App) (h : Reachable s) :
    (getTypeTable s).all
      (fun p => decide (p.1 ∈ s.currentSymbolTable.map Prod.fst)
        && (p.2 == "int" || p.2 == "float")) = true := by
  have hw := reachable_widgetsTyped s h
  rw [List.all_eq_true]
  intro p hp
  rw [getTypeTable, List.mem_filterMap] at hp
  obtain ⟨v, hv, hfv⟩ := hp
  cases hwv : widgetValue v s.typeWidgets with
  | none => rw [hwv] at hfv; simp at hfv
  | some val =>
    rw [hwv] at hfv
    simp only [Option.map_some'] at hfv
    injection hfv with hfv
    rw [← hfv]
    have hval := (List.all_eq_true.1 hw) _ (widgetValue_mem v val _ hwv)
    simp only [Bool.and_eq_true, decide_eq_true_eq]
    exact ⟨hv, by simpa using hval⟩

/-- C10 witness: the invariant evaluated at the initial state. -/
theorem getTypeTable_invariant_witness :
    (getTypeTable init).all
      (fun p => decide (p.1 ∈ init.currentSymbolTable.map Prod.fst)
        && (p.2 == "int" || p.2 == "float")) = true :=
  getTypeTable_invariant init Reachable.start

end CompilerViz
